import Mathlib

/-!
# Verification of the Aegis/Plimsoll transaction-firewall proxy

A shallow embedding of the proxy, config-cache and enclave-server code
(`plimsoll/proxy/interceptor.py`, `plimsoll/proxy/vault_config.py`,
`deploy/nitro/vsock_server.py`) together with theorems settling the
specification claims about them.

JSON values are modelled by an inductive type; Python dictionaries by
association lists; Python numeric values by `ℚ` (the code's arithmetic on
amounts is exact for the quantities the claims mention); code that can raise
returns `Except`.  The firewall engine pipeline itself is not part of the
sources under verification, so handlers are parameterised by an abstract
evaluation function `σ → Normalized → ℚ → Verdict × σ`.
-/

namespace Aegis

/-- Model of a Python/JSON value.  Numbers (int and float) are collapsed to
`ℚ`; the code under verification never distinguishes them in a way the
claims depend on. -/
inductive Json where
  | null
  | bool (b : Bool)
  | num (q : ℚ)
  | str (s : String)
  | arr (xs : List Json)
  | obj (fields : List (String × Json))

/-- Python truthiness for the modelled values: `None`, `False`, `0`, `""`,
`[]` and an empty dict are falsy, everything else truthy. -/
def pyTruthy : Json → Bool
  | .null => false
  | .bool b => b
  | .num q => q != 0
  | .str s => s != ""
  | .arr xs => !xs.isEmpty
  | .obj fs => !fs.isEmpty

/-- Lookup in an association list (Python `d[k]` / `d.get(k)`); keys in a
Python dict are unique so first-match lookup is faithful. -/
def alookup {α : Type} (l : List (String × α)) (k : String) : Option α :=
  match l.find? (fun p => p.1 == k) with
  | some p => some p.2
  | none => none

/-- Update/insert a key in an association list (Python `d[k] = v`). -/
def aupdate {α : Type} (l : List (String × α)) (k : String) (v : α) :
    List (String × α) :=
  match l with
  | [] => [(k, v)]
  | (k', v') :: rest => if k' == k then (k, v) :: rest else (k', v') :: aupdate rest k v

/-- Python `d.get(k, default)`. -/
def jGetD (fs : List (String × Json)) (k : String) (d : Json) : Json :=
  (alookup fs k).getD d

/-- ASCII lower-casing of a character (codes 65–90 shift to 97–122), as
`str.lower` acts on the ASCII addresses and hex strings this code handles. -/
def charLower (c : Char) : Char :=
  if 65 ≤ c.toNat ∧ c.toNat ≤ 90 then Char.ofNat (c.toNat + 32) else c

/-- Model of Python `str.lower()` (ASCII range; the code only lowercases
hex addresses and calldata). -/
def pyLower (s : String) : String := ⟨s.data.map charLower⟩

/-- Python `len(s)` (character count). -/
def pyLen (s : String) : Nat := s.data.length

/-- Python `s[:n]`. -/
def pyTake (s : String) (n : Nat) : String := ⟨s.data.take n⟩

/-- Python `s[n:]`. -/
def pyDrop (s : String) (n : Nat) : String := ⟨s.data.drop n⟩

/-- Python `s[-n:]`: the last `n` characters (the whole string if shorter). -/
def pyTakeRight (s : String) (n : Nat) : String :=
  ⟨s.data.drop (s.data.length - n)⟩

/-- Python `s.startswith("0x")`. -/
def pyStartsWith0x (s : String) : Bool :=
  match s.data with
  | '0' :: 'x' :: _ => true
  | _ => false

/-- Python `s.zfill(w)`: left-pad with zeros to width `w`. -/
def zfill (s : String) (w : Nat) : String :=
  ⟨List.replicate (w - s.data.length) '0' ++ s.data⟩

/-- Left-to-right, non-overlapping removal of every `"0x"` occurrence, as
Python's `s.replace("0x", "")` does in `_eth_call`. -/
def strip0xAll : List Char → List Char
  | '0' :: 'x' :: rest => strip0xAll rest
  | c :: rest => c :: strip0xAll rest
  | [] => []

/-- Model of `s.replace("0x", "")`. -/
def pyReplace0x (s : String) : String := ⟨strip0xAll s.data⟩

/-- Hexadecimal value of a character, if any. -/
def hexVal? (c : Char) : Option Nat :=
  if '0' ≤ c ∧ c ≤ '9' then some (c.toNat - '0'.toNat)
  else if 'a' ≤ c ∧ c ≤ 'f' then some (c.toNat - 'a'.toNat + 10)
  else if 'A' ≤ c ∧ c ≤ 'F' then some (c.toNat - 'A'.toNat + 10)
  else none

/-- Accumulate hex digits, allowing single underscores between digits as
Python's `int(s, 16)` does.  The boolean records whether the previous
character was a digit (an underscore must be followed by a digit and the
string must end in a digit). -/
def hexGo : List Char → Nat → Bool → Option Nat
  | [], acc, lastDigit => if lastDigit then some acc else none
  | c :: rest, acc, lastDigit =>
    if c = '_' then
      if lastDigit then hexGo rest acc false else none
    else
      match hexVal? c with
      | some v => hexGo rest (acc * 16 + v) true
      | none => none

/-- Model of Python `int(s, 16)`: optional surrounding whitespace, optional
sign, optional `0x`/`0X` prefix, then a nonempty run of hex digits
(underscores allowed between digits).  Returns `none` where Python raises
`ValueError`. -/
def parsePyHex (s : String) : Option Int :=
  let cs := ((s.data.dropWhile Char.isWhitespace).reverse.dropWhile
    Char.isWhitespace).reverse
  let signed : Bool × List Char :=
    match cs with
    | '-' :: r => (true, r)
    | '+' :: r => (false, r)
    | r => (false, r)
  let pref : Bool × List Char :=
    match signed.2 with
    | '0' :: 'x' :: r => (true, r)
    | '0' :: 'X' :: r => (true, r)
    | r => (false, r)
  if pref.2.isEmpty then none
  else
    match hexGo pref.2 0 pref.1 with
    | none => none
    | some n => some (if signed.1 then -(n : Int) else (n : Int))

/-- Decimal value of a character, if any. -/
def decVal? (c : Char) : Option Nat :=
  if '0' ≤ c ∧ c ≤ '9' then some (c.toNat - '0'.toNat) else none

/-- Consume a run of decimal digits, returning the value, the number of
digits read and the rest. -/
def takeDecDigits : List Char → Nat → Nat → Nat × Nat × List Char
  | [], acc, k => (acc, k, [])
  | c :: rest, acc, k =>
    match decVal? c with
    | some v => takeDecDigits rest (acc * 10 + v) (k + 1)
    | none => (acc, k, c :: rest)

/-- Parse an optional exponent part `e`/`E` with optional sign. -/
def parseExp : List Char → Option Int
  | [] => some 0
  | 'e' :: rest => parseExpTail rest
  | 'E' :: rest => parseExpTail rest
  | _ => none
where
  parseExpTail : List Char → Option Int
  | '-' :: rest =>
    match takeDecDigits rest 0 0 with
    | (v, k, []) => if k = 0 then none else some (-(v : Int))
    | _ => none
  | '+' :: rest =>
    match takeDecDigits rest 0 0 with
    | (v, k, []) => if k = 0 then none else some (v : Int)
    | _ => none
  | rest =>
    match takeDecDigits rest 0 0 with
    | (v, k, []) => if k = 0 then none else some (v : Int)
    | _ => none

/-- Model of Python `float(s)` on the decimal forms this code meets:
optional whitespace and sign, digits with optional fraction, optional
exponent.  (Exotic forms — `inf`, `nan`, underscores — are modelled as
failures; no claim depends on them.)  The value is exact, as `ℚ`. -/
def pyFloatStr (s : String) : Option ℚ :=
  let cs := ((s.data.dropWhile Char.isWhitespace).reverse.dropWhile
    Char.isWhitespace).reverse
  let signed : Bool × List Char :=
    match cs with
    | '-' :: r => (true, r)
    | '+' :: r => (false, r)
    | r => (false, r)
  let ip := takeDecDigits signed.2 0 0
  let frac : Option (Nat × Nat × List Char) :=
    match ip.2.2 with
    | '.' :: rest => some (takeDecDigits rest 0 0)
    | rest => some (0, 0, rest)
  match frac with
  | none => none
  | some fp =>
    if ip.2.1 + fp.2.1 = 0 then none
    else
      match parseExp fp.2.2 with
      | none => none
      | some e =>
        let mant : ℚ := (ip.1 * 10 ^ fp.2.1 + fp.1 : ℚ) / 10 ^ fp.2.1
        let v : ℚ := mant * (10 : ℚ) ^ e
        some (if signed.1 then -v else v)

/-- Model of Python `float(x)` on a JSON value: numbers and booleans convert,
strings parse, everything else raises `TypeError` (`none`). -/
def pyFloat : Json → Option ℚ
  | .num q => some q
  | .bool b => some (if b then 1 else 0)
  | .str s => pyFloatStr s
  | _ => none

/-! ## Normalizer (`interceptor._normalize_payload`, `interceptor._is_read_only`) -/

/-- A Python dict with string keys, as the proxy handlers receive from
`request.json()`. -/
abbrev JsonObj := List (String × Json)

/-- The transaction object: the first dictionary element of `params`
(empty dict if `params` is missing, not a list, or holds no dict), as the
loop in `_normalize_payload` selects it. -/
def txParams (body : JsonObj) : List (String × Json) :=
  match alookup body "params" with
  | some (.arr ps) =>
    match ps.find? (fun p => match p with | .obj _ => true | _ => false) with
    | some (.obj fs) => fs
    | _ => []
  | _ => []

/-- `to.lower() if to else ""`: a truthy non-string `to` raises
`AttributeError` (only `str` has `.lower`). -/
def normTarget (toJ : Json) : Except String String :=
  if pyTruthy toJ then
    match toJ with
    | .str s => .ok (pyLower s)
    | _ => .error "AttributeError: lower"
  else .ok ""

/-- Amount decoding in `_normalize_payload`: a `0x`-prefixed string is
parsed as hex wei and divided by `10^18` (`ValueError` leaves 0); any other
truthy value goes through `float(...)` (`ValueError`/`TypeError` leave 0). -/
def normAmount (valueJ : Json) : ℚ :=
  match valueJ with
  | .str s =>
    if pyStartsWith0x s then
      ((parsePyHex s).map (fun w => (w : ℚ) / 10 ^ 18)).getD 0
    else if pyTruthy valueJ then (pyFloat valueJ).getD 0
    else 0
  | _ => if pyTruthy valueJ then (pyFloat valueJ).getD 0 else 0

/-- Selector extraction: the first 10 characters of the calldata string,
lowercased, when it is a string of length ≥ 10. -/
def normSelector (dataJ : Json) : String :=
  match dataJ with
  | .str s => if 10 ≤ pyLen s then pyLower (pyTake s 10) else ""
  | _ => ""

/-- The flat dict `_normalize_payload` returns for the engines. -/
structure Normalized where
  target : String
  amount : ℚ
  function : String
  data : Json
  fromAddr : Json
  value : Json
  gas : Json
  gasPrice : Json
  maxFeePerGas : Json
  rawBody : JsonObj
  method : Json

/-- `interceptor._normalize_payload`.  Returns `.error` exactly where the
Python function raises (a truthy non-string `to`). -/
def normalizePayload (body : JsonObj) : Except String Normalized := do
  let params := txParams body
  let toJ := jGetD params "to" (.str "")
  let dataJ :=
    let a := jGetD params "data" (.str "")
    if pyTruthy a then a else jGetD params "input" (.str "")
  let valueJ := jGetD params "value" (.str "0x0")
  let target ← normTarget toJ
  return {
    target := target
    amount := normAmount valueJ
    function := normSelector dataJ
    data := dataJ
    fromAddr := jGetD params "from" (.str "")
    value := valueJ
    gas := jGetD params "gas" (.str "")
    gasPrice := jGetD params "gasPrice" (.str "")
    maxFeePerGas := jGetD params "maxFeePerGas" (.str "")
    rawBody := body
    method := jGetD body "method" (.str "")
  }

/-- The fixed set of state-changing RPC methods in `_is_read_only`. -/
def writeMethods : List String :=
  ["eth_sendTransaction", "eth_sendRawTransaction", "eth_sign",
   "personal_sign", "eth_signTypedData", "eth_signTypedData_v3",
   "eth_signTypedData_v4"]

/-- `interceptor._is_read_only`: the method is read-only iff it is not in
`writeMethods` (a non-string `method` value is never in the set). -/
def isReadOnly (body : JsonObj) : Bool :=
  match jGetD body "method" (.str "") with
  | .str s => !(writeMethods.contains s)
  | _ => true

/-! ## Enclave signing server (`deploy/nitro/vsock_server.handle_request`) -/

/-- Outcome of a vault signing call: a signature, the firewall-enforcement
error (`AegisEnforcementError`), or any other exception. -/
inductive SignResult where
  | sig (s : String)
  | enforcementError (msg : String)
  | otherError (msg : String)

/-- Abstract model of the `KeyVault` the server drives.  The vault's own
code (`aegis.enclave.vault`) is not among the sources; only the outcomes
of its calls matter to the server's behaviour, so they are fields. -/
structure VaultSim where
  signEth : Json → Json → ℚ → SignResult
  signTyped : Json → Json → SignResult
  numKeys : Nat

/-- Crude rendering of a value into the `f"Unknown action: {action}"`
message (unused by any claim theorem; numbers/containers are rendered
approximately). -/
def pyStr : Json → String
  | .str s => s
  | .bool b => if b then "True" else "False"
  | .null => "None"
  | .num q => toString q
  | .arr _ => "[...]"
  | .obj _ => "..."

/-- The structured block response of the `sign_*` handlers. -/
def signBlockedBody (e : String) : JsonObj :=
  [("ok", .bool false), ("error", .str e), ("blocked", .bool true)]

/-- `vsock_server.handle_request`.  `.error` models an exception escaping
the function (missing dict key, `float(...)` failure); the caller's loop
turns those into a generic error reply. -/
def handleRequest (vm : VaultSim) (data : JsonObj) : Except String JsonObj :=
  let action := jGetD data "action" (.str "")
  match action with
  | .str "store_key" =>
    match alookup data "key_id", alookup data "secret" with
    | some k, some _s => .ok [("ok", .bool true), ("key_id", k)]
    | _, _ => .error "KeyError"
  | .str "sign_eth" =>
    match alookup data "key_id" with
    | none => .error "KeyError: key_id"
    | some k =>
      match alookup data "tx_dict" with
      | none => .error "KeyError: tx_dict"
      | some tx =>
        match pyFloat (jGetD data "spend_amount" (.num 0)) with
        | none => .error "TypeError: float"
        | some spend =>
          match vm.signEth k tx spend with
          | .sig s => .ok [("ok", .bool true), ("signature", .str s)]
          | .enforcementError e => .ok (signBlockedBody e)
          | .otherError e => .ok [("ok", .bool false), ("error", .str e)]
  | .str "sign_typed" =>
    match alookup data "key_id" with
    | none => .error "KeyError: key_id"
    | some k =>
      match alookup data "typed_data" with
      | none => .error "KeyError: typed_data"
      | some td =>
        match vm.signTyped k td with
        | .sig s => .ok [("ok", .bool true), ("signature", .str s)]
        | .enforcementError e => .ok (signBlockedBody e)
        | .otherError e => .ok [("ok", .bool false), ("error", .str e)]
  | .str "health" =>
    .ok [("ok", .bool true), ("status", .str "enclave_running"),
         ("keys", .num vm.numKeys)]
  | a => .ok [("ok", .bool false), ("error", .str ("Unknown action: " ++ pyStr a))]

/-! ## Config cache (`plimsoll/proxy/vault_config.py`) -/

/-- Outcome of one upstream RPC request as `_eth_call` sees it: either the
`result` field of the JSON reply, or a failure (network error, JSON error,
or a reply without a `result` field), which `_eth_call` swallows. -/
inductive EthResp where
  | ok (result : String)
  | fail

/-- The upstream chain, as a pure oracle from (`to`, calldata) to a reply.
All reads in one fetch go through this oracle. -/
def Chain : Type := String → String → EthResp

/-- `VaultConfigCache._eth_call`: returns `None` on failure or a bare `"0x"`
result, otherwise the result with every `"0x"` occurrence removed. -/
def ethCall (chain : Chain) (toAddr data : String) : Option String :=
  match chain toAddr data with
  | .fail => none
  | .ok r => if r == "0x" then none else some (pyReplace0x r)

-- ABI selector constants from `vault_config.py`.
def velocityModuleSig : String := "0x951be135"
def whitelistModuleSig : String := "0x8fea31b0"
def drawdownModuleSig : String := "0xdd4c17ae"
def maxPerHourSig : String := "0x335c9d8c"
def maxSingleTxSig : String := "0x0cf96009"
def maxDrawdownBpsSig : String := "0x5661d461"
def whitelistCountSig : String := "0x3edff20f"
def whitelistedListSig : String := "0x05c8d3eb"
def whitelistedSig : String := "0xd936547e"

/-- `_MAX_WHITELIST_ENTRIES`. -/
def MAX_WHITELIST_ENTRIES : Nat := 100

/-- The 40-zero string `"0" * 40` the code compares module reads against. -/
def ADDR_ZERO : String := ⟨List.replicate 40 '0'⟩

/-- The `PlimsollConfig` a fetch produces: either the velocity parameters
built from (possibly defaulted) chain reads, or the bare `PlimsollConfig()`
the exception handler returns.  Only the fields the claims touch are kept. -/
inductive FetchedConfig where
  | params (vMax maxSingle window : ℚ)
  | defaults
  deriving DecidableEq

/-- A cached config entry (`CachedConfig`, reduced to the fields used). -/
structure CachedCfg where
  config : FetchedConfig
  fetchedAt : ℚ
  deriving DecidableEq

/-- The mutable state of a `VaultConfigCache`: `_cache`,
`_whitelist_cache` and `_whitelist_fetched_at`. -/
structure CacheState where
  configCache : List (String × CachedCfg)
  wlCache : List (String × Finset String)
  wlFetchedAt : List (String × ℚ)

/-- Store a whitelist for a key. -/
def setWl (st : CacheState) (k : String) (w : Finset String) : CacheState :=
  { st with wlCache := aupdate st.wlCache k w }

/-- Read one `uint256` parameter from a module address word:
0 when the module pointer or the read is falsy, the parsed value otherwise;
`.error` models the `ValueError` a garbage reply raises out of `int(_, 16)`. -/
def moduleRead (chain : Chain) (modRaw : Option String) (sig : String)
    (dflt : Int) : Except Unit Int :=
  match modRaw with
  | none => .ok dflt
  | some raw =>
    if raw == "" || raw == ADDR_ZERO then .ok dflt
    else
      let addr := "0x" ++ pyTakeRight raw 40
      match ethCall chain addr sig with
      | none => .ok dflt
      | some r =>
        if r == "" then .ok dflt
        else
          match parsePyHex r with
          | none => .error ()
          | some n => .ok n

/-- The body of `_fetch_from_chain` up to the exception handler. -/
def fetchFromChainE (chain : Chain) (vault : String) :
    Except Unit FetchedConfig := do
  let vm := ethCall chain vault velocityModuleSig
  let dm := ethCall chain vault drawdownModuleSig
  let mph ← moduleRead chain vm maxPerHourSig 0
  let mst ← moduleRead chain vm maxSingleTxSig 0
  let _bps ← moduleRead chain dm maxDrawdownBpsSig 500
  let maxPerHourEth : ℚ := if mph ≠ 0 then (mph : ℚ) / 10 ^ 18 else 5
  let maxSingleEth : ℚ := if mst ≠ 0 then (mst : ℚ) / 10 ^ 18 else 2
  return .params (maxPerHourEth / 3600) maxSingleEth 300

/-- `VaultConfigCache._fetch_from_chain`: any exception yields the default
`PlimsollConfig()`. -/
def fetchFromChain (chain : Chain) (vault : String) : FetchedConfig :=
  match fetchFromChainE chain vault with
  | .ok c => c
  | .error _ => .defaults

/-- `VaultConfigCache.get`: serve a fresh cached config, else fetch and
overwrite the entry. -/
def cacheGet (chain : Chain) (now ttl : ℚ) (vault : String) (st : CacheState) :
    FetchedConfig × CacheState :=
  let key := pyLower vault
  match alookup st.configCache key with
  | some c =>
    if now - c.fetchedAt < ttl then (c.config, st)
    else
      let cfg := fetchFromChain chain vault
      (cfg, { st with configCache := aupdate st.configCache key ⟨cfg, now⟩ })
  | none =>
    let cfg := fetchFromChain chain vault
    (cfg, { st with configCache := aupdate st.configCache key ⟨cfg, now⟩ })

/-- One iteration of the whitelist-read loop (`whitelistedList(i)` then the
`whitelisted(addr)` verification).  `.error` models the `ValueError` a
garbage verification reply raises out of `int(_, 16)`. -/
def wlStep (chain : Chain) (m : String) (acc : Finset String) (i : Nat) :
    Except Unit (Finset String) :=
  match ethCall chain m (whitelistedListSig ++ zfill ⟨Nat.toDigits 16 i⟩ 64) with
  | none => .ok acc
  | some araw =>
    if araw == "" then .ok acc
    else
      let addr := "0x" ++ pyLower (pyTakeRight araw 40)
      match ethCall chain m (whitelistedSig ++ zfill (pyLower (pyDrop addr 2)) 64) with
      | none => .ok acc
      | some vraw =>
        if vraw == "" then .ok acc
        else
          match parsePyHex vraw with
          | none => .error ()
          | some nv => if nv = 1 then .ok (insert addr acc) else .ok acc

/-- `VaultConfigCache._fetch_whitelist`.  The fetch timestamp is recorded
first (as in the source); an `_eth_call` failure surfaces as `none` and is
treated like absent data (the cache entry becomes the empty set); only an
exception mid-fetch reaches the handler that retains an existing entry. -/
def fetchWhitelist (chain : Chain) (now : ℚ) (vault : String)
    (st : CacheState) : CacheState :=
  let key := pyLower vault
  let st1 := { st with wlFetchedAt := aupdate st.wlFetchedAt key now }
  match ethCall chain vault whitelistModuleSig with
  | none => setWl st1 key ∅
  | some mraw =>
    if mraw == "" || mraw == ADDR_ZERO then setWl st1 key ∅
    else
      let m := "0x" ++ pyTakeRight mraw 40
      match ethCall chain m whitelistCountSig with
      | none => setWl st1 key ∅
      | some craw =>
        if craw == "" then setWl st1 key ∅
        else
          match parsePyHex craw with
          | none =>
            if (alookup st1.wlCache key).isSome then st1 else setWl st1 key ∅
          | some cnt =>
            if cnt = 0 then setWl st1 key ∅
            else
              let n := (min cnt (MAX_WHITELIST_ENTRIES : Int)).toNat
              match (List.range n).foldlM (wlStep chain m) (∅ : Finset String) with
              | .error _ =>
                if (alookup st1.wlCache key).isSome then st1 else setWl st1 key ∅
              | .ok ws => setWl st1 key ws

/-- The staleness-conditioned fetch at the top of `check_whitelist`. -/
def refreshWhitelist (chain : Chain) (now ttl : ℚ) (vault : String)
    (st : CacheState) : CacheState :=
  let key := pyLower vault
  let fetchedAt := (alookup st.wlFetchedAt key).getD 0
  if now - fetchedAt ≥ ttl then fetchWhitelist chain now vault st else st

/-- `VaultConfigCache.check_whitelist`: returns `(allowed, reason)` plus the
updated cache state. -/
def checkWhitelist (chain : Chain) (now ttl : ℚ) (vaultAddress target : String)
    (st : CacheState) : (Bool × String) × CacheState :=
  let key := pyLower vaultAddress
  let st1 := refreshWhitelist chain now ttl vaultAddress st
  match alookup st1.wlCache key with
  | none => ((true, "No whitelist configured — legacy mode"), st1)
  | some wl =>
    if wl = ∅ then ((true, "No whitelist configured — legacy mode"), st1)
    else if pyLower target ∈ wl then
      ((true, "Target " ++ pyTake target 10 ++ "... is whitelisted"), st1)
    else
      ((false, "WHITELIST GATE: Target " ++ target ++
        " is not on the vault's approved whitelist (" ++ toString wl.card ++
        " entries). Add it via the Plimsoll dashboard."), st1)

/-! ## Proxy route handlers (`interceptor._handle_rpc`, `_handle_vault_rpc`) -/

/-- A firewall verdict as the handlers consume it: `code` models
`verdict.code.value` and `feedbackPrompt` the result of
`verdict.feedback_prompt()` (the firewall class is outside the sources). -/
structure Verdict where
  blocked : Bool
  code : String
  reason : String
  feedbackPrompt : String

/-- The observable outcome of a handler invocation. -/
inductive ProxyResult where
  | badAddress
  | badJson
  | forwarded (body : JsonObj)
  | whitelistBlocked (dest reason : String)
  | firewallBlocked (v : Verdict)
  | serverError (msg : String)

/-- `interceptor._block_response`'s JSON body. -/
def blockResponseBody (v : Verdict) : JsonObj :=
  [("plimsoll_blocked", .bool true), ("verdict", .str v.code),
   ("reason", .str v.reason), ("feedback", .str v.feedbackPrompt)]

/-- `interceptor._whitelist_block_response`'s JSON body. -/
def whitelistBlockBody (destination reason : String) : JsonObj :=
  [("plimsoll_blocked", .bool true), ("verdict", .str "BLOCK_WHITELIST"),
   ("reason", .str reason),
   ("feedback", .str ("Destination " ++ destination ++
     " is not on the vault's whitelist. " ++
     "The vault owner must add it via the Plimsoll dashboard."))]

/-- HTTP status and JSON body of each handler outcome.  A forwarded request
carries the upstream's own status and body; 200 with the forwarded request
body stands in for that pass-through here.  An escaped exception produces
the framework's plain 500. -/
def renderResponse : ProxyResult → Nat × JsonObj
  | .badAddress => (400, [("error", .str "Invalid vault address. Use /v1/0x...")])
  | .badJson => (400, [("error", .str "Invalid JSON payload")])
  | .forwarded body => (200, body)
  | .whitelistBlocked d r => (403, whitelistBlockBody d r)
  | .firewallBlocked v => (403, blockResponseBody v)
  | .serverError _ => (500, [])

/-- The vault-address validation at the top of `_handle_vault_rpc`
(`not vault_address or not vault_address.startswith("0x") or
len(vault_address) != 42`, negated). -/
def vaultAddrOk (s : String) : Bool :=
  !((s == "") || !(pyStartsWith0x s) || (pyLen s != 42))

/-- A genuine 42-character hex address: `0x` followed by 40 hex digits. -/
def isHexAddress (s : String) : Bool :=
  pyStartsWith0x s && (pyLen s == 42) &&
    (pyDrop s 2).data.all (fun c => (hexVal? c).isSome)

/-- Per-process proxy state: the `_vault_firewalls` map and the
`VaultConfigCache`.  `σ` is the (abstract) state of one firewall. -/
structure ProxyState (σ : Type) where
  vaultFirewalls : List (String × σ)
  cache : CacheState

/-- `_get_vault_firewall` followed by `firewall.evaluate` and the block/
forward decision — the tail of `_handle_vault_rpc` after the whitelist
gate.  `evalFw` abstracts `PlimsollFirewall.evaluate`; `mkFirewall`
abstracts constructing (and seeding) a firewall from a fetched config. -/
def vaultEvalStep {σ : Type} (evalFw : σ → Normalized → ℚ → Verdict × σ)
    (mkFirewall : FetchedConfig → σ) (chain : Chain) (now ttl : ℚ)
    (vaultAddress : String) (body : JsonObj) (n : Normalized)
    (st : ProxyState σ) : ProxyResult × ProxyState σ :=
  let key := pyLower vaultAddress
  let acquired : σ × ProxyState σ :=
    match alookup st.vaultFirewalls key with
    | some f => (f, st)
    | none =>
      let fetched := cacheGet chain now ttl vaultAddress st.cache
      let f := mkFirewall fetched.1
      (f, { st with cache := fetched.2,
                    vaultFirewalls := aupdate st.vaultFirewalls key f })
  let evaluated := evalFw acquired.1 n n.amount
  let st2 := { acquired.2 with
    vaultFirewalls := aupdate acquired.2.vaultFirewalls key evaluated.2 }
  if evaluated.1.blocked then (.firewallBlocked evaluated.1, st2)
  else (.forwarded body, st2)

/-- `interceptor._handle_vault_rpc`.  `body?` is the parse outcome of
`request.json()` (`none` = invalid JSON).  The module-level `_vault_cache`
is always set by `create_proxy_app`, so the `destination and _vault_cache`
guard reduces to the destination being non-empty. -/
def handleVaultRpc {σ : Type} (evalFw : σ → Normalized → ℚ → Verdict × σ)
    (mkFirewall : FetchedConfig → σ) (chain : Chain) (now ttl : ℚ)
    (vaultAddress : String) (body? : Option JsonObj) (st : ProxyState σ) :
    ProxyResult × ProxyState σ :=
  if vaultAddrOk vaultAddress then
    match body? with
    | none => (.badJson, st)
    | some body =>
      if isReadOnly body then (.forwarded body, st)
      else
        match normalizePayload body with
        | .error e => (.serverError e, st)
        | .ok n =>
          if n.target ≠ "" then
            let gate := checkWhitelist chain now ttl vaultAddress n.target st.cache
            let st1 := { st with cache := gate.2 }
            if gate.1.1 = false then
              (.whitelistBlocked n.target gate.1.2, st1)
            else
              vaultEvalStep evalFw mkFirewall chain now ttl vaultAddress body n st1
          else
            vaultEvalStep evalFw mkFirewall chain now ttl vaultAddress body n st
  else (.badAddress, st)

/-- `interceptor._handle_rpc` — the global route with its single firewall
of state `σ`. -/
def handleRpc {σ : Type} (evalFw : σ → Normalized → ℚ → Verdict × σ)
    (body? : Option JsonObj) (fw : σ) : ProxyResult × σ :=
  match body? with
  | none => (.badJson, fw)
  | some body =>
    if isReadOnly body then (.forwarded body, fw)
    else
      match normalizePayload body with
      | .error e => (.serverError e, fw)
      | .ok n =>
        let evaluated := evalFw fw n n.amount
        if evaluated.1.blocked then (.firewallBlocked evaluated.1, evaluated.2)
        else (.forwarded body, evaluated.2)

/-! ## Spec-side extraction rules (§4.1 of the spec), for the refinement
claims about the normalizer. -/

/-- Modelled from the spec: `target = lowercase(to), or empty if absent`. -/
def targetSpec : Json → String
  | .str s => pyLower s
  | _ => ""

/-- Modelled from the spec: `selector = first 10 hex characters of data
(including 0x), lowercased, if len(data) ≥ 10`. -/
def selectorSpec : Json → String
  | .str s => if 10 ≤ pyLen s then pyLower (pyTake s 10) else ""
  | _ => ""

/-- Modelled from the spec: `amount = decode value: if hex-prefixed, parse
hex to integer wei and divide by 10^18; otherwise attempt numeric parse;
on failure, amount = 0`. -/
def amountSpec (v : Json) : ℚ :=
  match v with
  | .str s =>
    if pyStartsWith0x s then
      ((parsePyHex s).map (fun w => (w : ℚ) / 10 ^ 18)).getD 0
    else (pyFloat v).getD 0
  | _ => (pyFloat v).getD 0

/-- Modelled from the spec: `the first dictionary element of params is the
transaction object`. -/
def specTxObject (body : JsonObj) : Option Json :=
  match alookup body "params" with
  | some (.arr ps) =>
    ps.find? (fun p => match p with | .obj _ => true | _ => false)
  | _ => none

/-! ## General lemmas -/

theorem alookup_aupdate_self {α : Type} (l : List (String × α)) (k : String)
    (v : α) : alookup (aupdate l k v) k = some v := by
  induction l with
  | nil => simp [aupdate, alookup]
  | cons hd tl ih =>
    by_cases h : hd.1 == k
    · simp [aupdate, h, alookup]
    · simp only [aupdate, h, Bool.false_eq_true, if_false]
      simpa [alookup, List.find?, h] using ih

theorem toNat_charOfNat_valid (n : Nat) (h : n < 55296) :
    (Char.ofNat n).toNat = n := by
  simp [Char.ofNat, Nat.isValidChar, h, Char.ofNatAux, Char.toNat,
    UInt32.toNat, UInt32.ofNatCore]

theorem charLower_idem (c : Char) : charLower (charLower c) = charLower c := by
  by_cases h : 65 ≤ c.toNat ∧ c.toNat ≤ 90
  · have h1 : charLower c = Char.ofNat (c.toNat + 32) := by
      unfold charLower
      rw [if_pos h]
    have ht : (Char.ofNat (c.toNat + 32)).toNat = c.toNat + 32 :=
      toNat_charOfNat_valid _ (by omega)
    rw [h1]
    unfold charLower
    rw [if_neg (by rw [ht]; omega)]
  · have h1 : charLower c = c := by
      unfold charLower
      rw [if_neg h]
    rw [h1, h1]

theorem pyLower_idem (s : String) : pyLower (pyLower s) = pyLower s := by
  have key : ∀ l : List Char,
      List.map charLower (List.map charLower l) = List.map charLower l := by
    intro l
    rw [List.map_map]
    exact List.map_congr_left fun c _ => charLower_idem c
  exact congrArg String.mk (key s.data)

theorem pyLower_append (s t : String) :
    pyLower (s ++ t) = pyLower s ++ pyLower t := by
  cases s; cases t
  simp [pyLower, String.ext_iff, List.map_append]

/-- The truthiness guard around `float(value)` is redundant: every falsy
value also numerically parses to 0 (or fails, defaulting to 0), so the
code's amount decoding agrees with the spec's description of it. -/
theorem normAmount_eq_amountSpec (v : Json) : normAmount v = amountSpec v := by
  cases v with
  | str s =>
    simp only [normAmount, amountSpec]
    by_cases h0 : pyStartsWith0x s
    · simp [h0]
    · simp only [h0, Bool.false_eq_true, if_false]
      by_cases ht : pyTruthy (.str s)
      · simp [ht]
      · have hs : s = "" := by simpa [pyTruthy] using ht
        subst hs
        simp [pyTruthy, pyFloat]
        rfl
  | null => simp [normAmount, amountSpec, pyTruthy, pyFloat]
  | bool b => cases b <;> simp [normAmount, amountSpec, pyTruthy, pyFloat]
  | num q =>
    simp only [normAmount, amountSpec]
    by_cases h : pyTruthy (.num q)
    · simp [h]
    · have hq : q = 0 := by simpa [pyTruthy] using h
      subst hq
      simp [pyTruthy, pyFloat]
  | arr xs =>
    simp only [normAmount, amountSpec, pyFloat]
    split <;> rfl
  | obj fs =>
    simp only [normAmount, amountSpec, pyFloat]
    split <;> rfl

/-! ## C2 — blocked signing requests return a structured error, never a
signature -/

/-- C2: for a `sign_eth` or `sign_typed` request whose vault signing call
raises the firewall-enforcement error (the BLOCK verdict), `handle_request`
returns the structured object with `ok = false` and `blocked = true`, and
that response has no `signature` field. -/
theorem blocked_sign_returns_structured_error (vm : VaultSim) (data : JsonObj) :
    (jGetD data "action" (.str "") = .str "sign_eth" →
      ∀ k tx spend e, alookup data "key_id" = some k →
        alookup data "tx_dict" = some tx →
        pyFloat (jGetD data "spend_amount" (.num 0)) = some spend →
        vm.signEth k tx spend = .enforcementError e →
        handleRequest vm data = .ok (signBlockedBody e) ∧
        alookup (signBlockedBody e) "ok" = some (.bool false) ∧
        alookup (signBlockedBody e) "blocked" = some (.bool true) ∧
        alookup (signBlockedBody e) "signature" = none) ∧
    (jGetD data "action" (.str "") = .str "sign_typed" →
      ∀ k td e, alookup data "key_id" = some k →
        alookup data "typed_data" = some td →
        vm.signTyped k td = .enforcementError e →
        handleRequest vm data = .ok (signBlockedBody e) ∧
        alookup (signBlockedBody e) "ok" = some (.bool false) ∧
        alookup (signBlockedBody e) "blocked" = some (.bool true) ∧
        alookup (signBlockedBody e) "signature" = none) := by
  constructor
  · intro ha k tx spend e hk htx hs hsig
    refine ⟨?_, rfl, rfl, rfl⟩
    simp only [handleRequest, ha, hk, htx, hs, hsig]
  · intro ha k td e hk htd hsig
    refine ⟨?_, rfl, rfl, rfl⟩
    simp only [handleRequest, ha, hk, htd, hsig]

/-- A vault whose firewall blocks everything. -/
def vmBlockAll : VaultSim :=
  ⟨fun _ _ _ => .enforcementError "blocked by firewall",
   fun _ _ => .enforcementError "blocked by firewall", 0⟩

def signEthReq : JsonObj :=
  [("action", .str "sign_eth"), ("key_id", .str "k1"),
   ("tx_dict", .obj []), ("spend_amount", .num 1)]

def signTypedReq : JsonObj :=
  [("action", .str "sign_typed"), ("key_id", .str "k1"),
   ("typed_data", .obj [])]

/-- Witness for C2 at concrete blocked requests. -/
theorem blocked_sign_returns_structured_error_witness :
    (handleRequest vmBlockAll signEthReq =
       .ok (signBlockedBody "blocked by firewall") ∧
     alookup (signBlockedBody "blocked by firewall") "signature" = none) ∧
    handleRequest vmBlockAll signTypedReq =
      .ok (signBlockedBody "blocked by firewall") := by
  refine ⟨⟨?_, ?_⟩, ?_⟩
  · exact ((blocked_sign_returns_structured_error vmBlockAll signEthReq).1
      rfl (.str "k1") (.obj []) 1 "blocked by firewall" rfl rfl rfl rfl).1
  · exact ((blocked_sign_returns_structured_error vmBlockAll signEthReq).1
      rfl (.str "k1") (.obj []) 1 "blocked by firewall" rfl rfl rfl rfl).2.2.2
  · exact ((blocked_sign_returns_structured_error vmBlockAll signTypedReq).2
      rfl (.str "k1") (.obj []) "blocked by firewall" rfl rfl rfl).1

/-- The record `_normalize_payload` returns once the target survived
`to.lower()`. -/
def normRecord (body : JsonObj) (t : String) : Normalized :=
  { target := t
    amount := normAmount (jGetD (txParams body) "value" (.str "0x0"))
    function := normSelector
      (if pyTruthy (jGetD (txParams body) "data" (.str "")) then
        jGetD (txParams body) "data" (.str "")
      else jGetD (txParams body) "input" (.str ""))
    data :=
      (if pyTruthy (jGetD (txParams body) "data" (.str "")) then
        jGetD (txParams body) "data" (.str "")
      else jGetD (txParams body) "input" (.str ""))
    fromAddr := jGetD (txParams body) "from" (.str "")
    value := jGetD (txParams body) "value" (.str "0x0")
    gas := jGetD (txParams body) "gas" (.str "")
    gasPrice := jGetD (txParams body) "gasPrice" (.str "")
    maxFeePerGas := jGetD (txParams body) "maxFeePerGas" (.str "")
    rawBody := body
    method := jGetD body "method" (.str "") }

theorem normalizePayload_ok (body : JsonObj) (t : String)
    (ht : normTarget (jGetD (txParams body) "to" (.str "")) = .ok t) :
    normalizePayload body = .ok (normRecord body t) := by
  simp only [normalizePayload, normRecord, ht, bind, Except.bind, pure,
    Except.pure]

/-! ## C3 — totality of the normalizer -/

/-- C3 counterexample: `_normalize_payload` is not total.  On a JSON object
whose transaction dict carries a truthy non-string `to` (here the number 1),
`to.lower()` raises `AttributeError`, so the normalizer raises instead of
returning a normalized dict with safe defaults. -/
theorem normalizePayload_raises_on_numeric_to :
    normalizePayload [("params", .arr [.obj [("to", .num 1)]])] =
      .error "AttributeError: lower" := rfl

/-- C3 as amended: the normalizer returns (without raising) a normalized
dict whenever the `to` field of the transaction object is a string or
falsy — every other malformed field is absorbed with safe defaults (empty
target when `to` is absent, amount 0 when `value` is absent, empty selector
when calldata is absent). -/
theorem normalizePayload_total_on_safe_to (body : JsonObj)
    (h : pyTruthy (jGetD (txParams body) "to" (.str "")) = false ∨
         ∃ s, jGetD (txParams body) "to" (.str "") = .str s) :
    ∃ n, normalizePayload body = .ok n ∧
      (alookup (txParams body) "to" = none → n.target = "") ∧
      (alookup (txParams body) "value" = none → n.amount = 0) ∧
      (alookup (txParams body) "data" = none →
        alookup (txParams body) "input" = none → n.function = "") := by
  have ht : ∃ t, normTarget (jGetD (txParams body) "to" (.str "")) = .ok t ∧
      (alookup (txParams body) "to" = none → t = "") := by
    rcases h with h | ⟨s, hs⟩
    · exact ⟨"", by simp [normTarget, h], fun _ => rfl⟩
    · rw [hs]
      by_cases htr : pyTruthy (.str s)
      · refine ⟨pyLower s, by simp [normTarget, htr], ?_⟩
        intro hnone
        have hdflt : jGetD (txParams body) "to" (.str "") = .str "" := by
          simp [jGetD, hnone]
        rw [hs] at hdflt
        cases hdflt
        rfl
      · exact ⟨"", by simp [normTarget, htr], fun _ => rfl⟩
  obtain ⟨t, ht, htz⟩ := ht
  refine ⟨normRecord body t, normalizePayload_ok body t ht, ?_, ?_, ?_⟩
  · intro hnone
    simpa [normRecord] using htz hnone
  · intro hnone
    show normAmount (jGetD (txParams body) "value" (.str "0x0")) = 0
    simp only [jGetD, hnone, Option.getD_none]
    have hp : parsePyHex "0x0" = some 0 := by decide
    have h0x : pyStartsWith0x "0x0" = true := rfl
    simp [normAmount, h0x, hp]
  · intro hd hi
    show normSelector
      (if pyTruthy (jGetD (txParams body) "data" (.str "")) then
        jGetD (txParams body) "data" (.str "")
      else jGetD (txParams body) "input" (.str "")) = ""
    simp only [jGetD, hd, hi, Option.getD_none]
    decide

/-- A body on which the amended C3 applies and every default kicks in. -/
theorem normalizePayload_total_on_safe_to_witness :
    ∃ n, normalizePayload [] = .ok n ∧
      (alookup (txParams []) "to" = none → n.target = "") ∧
      (alookup (txParams []) "value" = none → n.amount = 0) ∧
      (alookup (txParams []) "data" = none →
        alookup (txParams []) "input" = none → n.function = "") :=
  normalizePayload_total_on_safe_to [] (Or.inl rfl)

/-! ## C5 — extraction rules of the normalizer -/

/-- C5 counterexample: the extraction contract does not hold for every
state-changing body — with a truthy non-string `to` (here `true`) the
normalizer raises rather than extracting a target. -/
theorem normalizePayload_extraction_raises_on_bool_to :
    normalizePayload [("method", .str "eth_sendTransaction"),
      ("params", .arr [.obj [("to", .bool true)]])] =
      .error "AttributeError: lower" := rfl

/-- C5 as amended: for every state-changing body whose transaction-object
`to` field is a string or falsy, the normalizer extracts the transaction
object as the first dictionary element of `params`, the target as the
lowercased `to` (empty when absent or falsy non-string), the selector as
the lowercased first 10 characters of the calldata string exactly when its
length is ≥ 10, and the amount by the spec's hex-wei/numeric/0 rule. -/
theorem normalizePayload_extraction (body : JsonObj)
    (_hsc : isReadOnly body = false)
    (h : pyTruthy (jGetD (txParams body) "to" (.str "")) = false ∨
         ∃ s, jGetD (txParams body) "to" (.str "") = .str s) :
    (∀ fs, specTxObject body = some (.obj fs) → txParams body = fs) ∧
    (specTxObject body = none → txParams body = []) ∧
    ∃ n, normalizePayload body = .ok n ∧
      n.target = targetSpec (jGetD (txParams body) "to" (.str "")) ∧
      n.function = selectorSpec
        (if pyTruthy (jGetD (txParams body) "data" (.str "")) then
          jGetD (txParams body) "data" (.str "")
        else jGetD (txParams body) "input" (.str "")) ∧
      n.amount = amountSpec (jGetD (txParams body) "value" (.str "0x0")) := by
  refine ⟨?_, ?_, ?_⟩
  · intro fs hfs
    unfold specTxObject at hfs
    unfold txParams
    split at hfs
    · rw [hfs]
    · exact absurd hfs (by simp)
  · intro hnone
    unfold specTxObject at hnone
    unfold txParams
    split at hnone
    · rw [hnone]
    · rfl
  · have ht : ∃ t, normTarget (jGetD (txParams body) "to" (.str "")) = .ok t ∧
        t = targetSpec (jGetD (txParams body) "to" (.str "")) := by
      rcases h with h | ⟨s, hs⟩
      · refine ⟨"", by simp [normTarget, h], ?_⟩
        cases hj : jGetD (txParams body) "to" (.str "") with
        | str s =>
          have : s = "" := by
            rw [hj] at h
            simpa [pyTruthy] using h
          simp [targetSpec, this]
          rfl
        | _ => simp [targetSpec]
      · rw [hs]
        by_cases htr : pyTruthy (.str s)
        · exact ⟨pyLower s, by simp [normTarget, htr], by simp [targetSpec]⟩
        · have hse : s = "" := by simpa [pyTruthy] using htr
          subst hse
          exact ⟨"", by simp [normTarget, pyTruthy], by simp [targetSpec]; rfl⟩
    obtain ⟨t, ht, hts⟩ := ht
    refine ⟨normRecord body t, normalizePayload_ok body t ht, hts, ?_, ?_⟩
    · show normSelector _ = selectorSpec _
      cases (if pyTruthy (jGetD (txParams body) "data" (.str "")) then
          jGetD (txParams body) "data" (.str "")
        else jGetD (txParams body) "input" (.str "")) <;>
        simp [normSelector, selectorSpec]
    · exact normAmount_eq_amountSpec _

def extractionBody : JsonObj :=
  [("method", .str "eth_sendTransaction"),
   ("params", .arr [.str "x", .obj [("to", .str "0xAB"),
     ("data", .str "0xA9059CBB0011"), ("value", .str "0xDE0B6B3A7640000")]])]

/-- Witness for the amended C5 on a concrete `eth_sendTransaction` body
(first `params` element non-dict, mixed-case `to`, 1 ETH hex value). -/
theorem normalizePayload_extraction_witness :
    (∀ fs, specTxObject extractionBody = some (.obj fs) →
       txParams extractionBody = fs) ∧
    (specTxObject extractionBody = none → txParams extractionBody = []) ∧
    ∃ n, normalizePayload extractionBody = .ok n ∧
      n.target = targetSpec (jGetD (txParams extractionBody) "to" (.str "")) ∧
      n.function = selectorSpec
        (if pyTruthy (jGetD (txParams extractionBody) "data" (.str "")) then
          jGetD (txParams extractionBody) "data" (.str "")
        else jGetD (txParams extractionBody) "input" (.str "")) ∧
      n.amount = amountSpec (jGetD (txParams extractionBody) "value" (.str "0x0")) :=
  normalizePayload_extraction extractionBody rfl (Or.inr ⟨"0xAB", rfl⟩)

/-! ## C4 — read-only classification and pass-through -/

/-- C4 counterexample: `eth_signTypedData_v1` is an `eth_signTypedData*`
variant, yet `_is_read_only` classifies it as read-only — the write set
lists only the bare name and the `_v3`/`_v4` variants. -/
theorem signTypedData_v1_classified_read_only :
    isReadOnly [("method", .str "eth_signTypedData_v1")] = true ∧
    pyTake "eth_signTypedData_v1" 17 = "eth_signTypedData" := by
  exact ⟨rfl, rfl⟩

/-- C4 as amended: a request is state-changing exactly when its `method`
is one of the seven literal strings of `writeMethods` (so
`eth_signTypedData_v1` and any other unlisted `eth_signTypedData*` name is
read-only), and both proxy handlers forward a read-only request untouched:
the firewall state (global firewall, per-vault firewall map and config
cache) is returned unchanged, for every possible firewall. -/
theorem read_only_classification_and_passthrough :
    (∀ body : JsonObj, isReadOnly body = false ↔
      jGetD body "method" (.str "") ∈ writeMethods.map Json.str) ∧
    (∀ (σ : Type) (evalFw : σ → Normalized → ℚ → Verdict × σ)
       (body : JsonObj) (fw : σ), isReadOnly body = true →
       handleRpc evalFw (some body) fw = (.forwarded body, fw)) ∧
    (∀ (σ : Type) (evalFw : σ → Normalized → ℚ → Verdict × σ)
       (mkFirewall : FetchedConfig → σ) (chain : Chain) (now ttl : ℚ)
       (va : String) (body : JsonObj) (st : ProxyState σ),
       vaultAddrOk va = true → isReadOnly body = true →
       handleVaultRpc evalFw mkFirewall chain now ttl va (some body) st =
         (.forwarded body, st)) := by
  refine ⟨?_, ?_, ?_⟩
  · intro body
    unfold isReadOnly
    cases hj : jGetD body "method" (.str "") with
    | str s =>
      simp only [Bool.not_eq_false', Bool.not_eq_true]
      constructor
      · intro hc
        have : s ∈ writeMethods := by
          simpa using hc
        exact List.mem_map_of_mem Json.str this
      · intro hm
        obtain ⟨w, hw, he⟩ := List.mem_map.mp hm
        cases he
        simpa using hw
    | null => simp [writeMethods]
    | bool b => simp [writeMethods]
    | num q => simp [writeMethods]
    | arr xs => simp [writeMethods]
    | obj fs => simp [writeMethods]
  · intro σ evalFw body fw hro
    simp [handleRpc, hro]
  · intro σ evalFw mkFirewall chain now ttl va body st hva hro
    simp [handleVaultRpc, hva, hro]

def readOnlyBody : JsonObj := [("method", .str "eth_blockNumber")]

def allowVerdict : Verdict := ⟨false, "ALLOW", "ok", "ok"⟩

/-- A trivial concrete firewall over `Nat` state that allows everything and
counts evaluations. -/
def countingAllow : Nat → Normalized → ℚ → Verdict × Nat :=
  fun s _ _ => (allowVerdict, s + 1)

def vaultA : String := "0x" ++ ⟨List.replicate 40 'a'⟩

def emptyProxyState : ProxyState Nat := ⟨[], ⟨[], [], []⟩⟩

/-- Witness for the amended C4: the classification at two concrete methods,
and both handlers passing a read-only request through with unchanged
state. -/
theorem read_only_classification_witness :
    (isReadOnly [("method", .str "eth_sendTransaction")] = false ↔
      jGetD [("method", .str "eth_sendTransaction")] "method" (.str "") ∈
        writeMethods.map Json.str) ∧
    handleRpc countingAllow (some readOnlyBody) 0 =
      (.forwarded readOnlyBody, 0) ∧
    handleVaultRpc countingAllow (fun _ => 0) (fun _ _ => .fail) 1000 300
      vaultA (some readOnlyBody) emptyProxyState =
      (.forwarded readOnlyBody, emptyProxyState) := by
  refine ⟨?_, ?_, ?_⟩
  · exact read_only_classification_and_passthrough.1
      [("method", .str "eth_sendTransaction")]
  · exact read_only_classification_and_passthrough.2.1 Nat countingAllow
      readOnlyBody 0 rfl
  · exact read_only_classification_and_passthrough.2.2 Nat countingAllow
      (fun _ => 0) (fun _ _ => .fail) 1000 300 vaultA readOnlyBody
      emptyProxyState (by decide) rfl

/-! ## C6 — shape of the firewall BLOCK response -/

def denyVerdict : Verdict := ⟨true, "BLOCK_DENYLIST", "denied", "fb"⟩

/-- A firewall that blocks everything with `denyVerdict` and counts. -/
def countingDeny : Nat → Normalized → ℚ → Verdict × Nat :=
  fun s _ _ => (denyVerdict, s + 1)

def sendTxBody : JsonObj := [("method", .str "eth_sendTransaction")]

/-- C6 counterexample: on a concrete blocked state-changing request the
proxy does return a 403, but its JSON body has no `blocked` and no `code`
key — the fields are named `plimsoll_blocked` and `verdict`. -/
theorem block_response_lacks_blocked_and_code_keys :
    (handleRpc countingDeny (some sendTxBody) 0).1 =
      .firewallBlocked denyVerdict ∧
    (renderResponse (.firewallBlocked denyVerdict)).1 = 403 ∧
    alookup (renderResponse (.firewallBlocked denyVerdict)).2 "blocked" = none ∧
    alookup (renderResponse (.firewallBlocked denyVerdict)).2 "code" = none := by
  exact ⟨rfl, rfl, rfl, rfl⟩

/-- C6 as amended: for every state-changing request on which the firewall
verdict is BLOCK, the global handler returns the block outcome rendered as
HTTP 403 whose JSON body carries the verdict's code, reason and feedback
string — under the keys `plimsoll_blocked` (true), `verdict`, `reason` and
`feedback` (not `blocked`/`code`). -/
theorem block_response_shape {σ : Type}
    (evalFw : σ → Normalized → ℚ → Verdict × σ) (body : JsonObj) (fw fw' : σ)
    (n : Normalized) (v : Verdict) (hro : isReadOnly body = false)
    (hn : normalizePayload body = .ok n)
    (hev : evalFw fw n n.amount = (v, fw')) (hb : v.blocked = true) :
    handleRpc evalFw (some body) fw = (.firewallBlocked v, fw') ∧
    renderResponse (.firewallBlocked v) = (403, blockResponseBody v) ∧
    alookup (blockResponseBody v) "plimsoll_blocked" = some (.bool true) ∧
    alookup (blockResponseBody v) "verdict" = some (.str v.code) ∧
    alookup (blockResponseBody v) "reason" = some (.str v.reason) ∧
    alookup (blockResponseBody v) "feedback" = some (.str v.feedbackPrompt) := by
  refine ⟨?_, rfl, rfl, rfl, rfl, rfl⟩
  simp [handleRpc, hro, hn, hev, hb]

/-- Witness for the amended C6 at the concrete blocking firewall. -/
theorem block_response_shape_witness :
    handleRpc countingDeny (some sendTxBody) 0 =
      (.firewallBlocked denyVerdict, 1) ∧
    renderResponse (.firewallBlocked denyVerdict) =
      (403, blockResponseBody denyVerdict) ∧
    alookup (blockResponseBody denyVerdict) "plimsoll_blocked" =
      some (.bool true) ∧
    alookup (blockResponseBody denyVerdict) "verdict" =
      some (.str denyVerdict.code) ∧
    alookup (blockResponseBody denyVerdict) "reason" =
      some (.str denyVerdict.reason) ∧
    alookup (blockResponseBody denyVerdict) "feedback" =
      some (.str denyVerdict.feedbackPrompt) :=
  block_response_shape countingDeny sendTxBody 0 1
    (normRecord sendTxBody "") denyVerdict rfl
    (normalizePayload_ok sendTxBody "" rfl) rfl rfl

/-! ## C7 — principal (vault address) validation -/

def zAddr : String := "0x" ++ ⟨List.replicate 40 'z'⟩

/-- C7 counterexample: `"0x" ++ 40×'z'` is not a hex address, yet the
handler accepts it (no 400): the check tests only the `0x` prefix and the
length, never the hex digits, and here it forwards a read-only request. -/
theorem non_hex_principal_accepted :
    isHexAddress zAddr = false ∧
    (handleVaultRpc countingAllow (fun _ => 0) (fun _ _ => .fail) 1000 300
      zAddr (some readOnlyBody) emptyProxyState).1 =
      .forwarded readOnlyBody := by
  exact ⟨by decide, rfl⟩

/-- C7 as amended: the handler returns 400 exactly when the principal fails
the prefix/length test (`0x` prefix and length 42) — hex digits are not
checked.  In the 400 case nothing else happens: the result is the same for
every body (even an unparsable one), every firewall and every cache, and
the state is returned unchanged.  Conversely every genuine 42-character
hex address passes the test. -/
theorem principal_validation :
    (∀ (σ : Type) (evalFw : σ → Normalized → ℚ → Verdict × σ)
       (mkFirewall : FetchedConfig → σ) (chain : Chain) (now ttl : ℚ)
       (va : String) (body? : Option JsonObj) (st : ProxyState σ),
       vaultAddrOk va = false →
       handleVaultRpc evalFw mkFirewall chain now ttl va body? st =
         (.badAddress, st)) ∧
    (∀ va : String, isHexAddress va = true → vaultAddrOk va = true) := by
  constructor
  · intro σ evalFw mkFirewall chain now ttl va body? st hva
    simp [handleVaultRpc, hva]
  · intro va h
    unfold isHexAddress at h
    unfold vaultAddrOk
    simp only [Bool.and_eq_true] at h
    obtain ⟨⟨h1, h2⟩, _⟩ := h
    have hl : pyLen va = 42 := by simpa using h2
    have hne : (va == "") = false := by
      rw [beq_eq_false_iff_ne]
      intro hv
      rw [hv] at hl
      simp [pyLen] at hl
    simp [hne, h1, hl]

/-- Witness for the amended C7: a malformed principal (wrong length) is
rejected with state unchanged, and a genuine hex address passes. -/
theorem principal_validation_witness :
    handleVaultRpc countingAllow (fun _ => 0) (fun _ _ => .fail) 1000 300
      "0xabc" (some readOnlyBody) emptyProxyState =
      (.badAddress, emptyProxyState) ∧
    vaultAddrOk vaultA = true := by
  constructor
  · exact principal_validation.1 Nat countingAllow (fun _ => 0)
      (fun _ _ => .fail) 1000 300 "0xabc" (some readOnlyBody)
      emptyProxyState (by decide)
  · exact principal_validation.2 vaultA (by decide)

/-! ## C1 — the whitelist gate on the per-principal route -/

theorem fetchWhitelist_configCache (chain : Chain) (now : ℚ) (vault : String)
    (st : CacheState) :
    (fetchWhitelist chain now vault st).configCache = st.configCache := by
  unfold fetchWhitelist setWl
  dsimp only
  repeat' split
  all_goals rfl

theorem refreshWhitelist_configCache (chain : Chain) (now ttl : ℚ)
    (vault : String) (st : CacheState) :
    (refreshWhitelist chain now ttl vault st).configCache = st.configCache := by
  unfold refreshWhitelist
  dsimp only
  split
  · exact fetchWhitelist_configCache chain now vault st
  · rfl

/-- The reason string `check_whitelist` produces on a rejection. -/
def wlGateReason (target : String) (W : Finset String) : String :=
  "WHITELIST GATE: Target " ++ target ++
    " is not on the vault's approved whitelist (" ++ toString W.card ++
    " entries). Add it via the Plimsoll dashboard."

/-- C1 as amended: on the per-principal route, for a state-changing request
whose normalized target is NON-EMPTY, not on the principal's non-empty
effective whitelist `W`, the handler returns the BLOCK_WHITELIST outcome
(rendered as HTTP 403 with verdict BLOCK_WHITELIST) before any engine runs:
the result holds for every firewall-evaluation function, the per-vault
firewall map is unchanged, and the config cache is never consulted
(`configCache` unchanged). -/
theorem whitelist_gate_blocks_nonempty_target {σ : Type}
    (evalFw : σ → Normalized → ℚ → Verdict × σ)
    (mkFirewall : FetchedConfig → σ) (chain : Chain) (now ttl : ℚ)
    (vault : String) (body : JsonObj) (st : ProxyState σ) (n : Normalized)
    (W : Finset String)
    (haddr : vaultAddrOk vault = true)
    (hro : isReadOnly body = false)
    (hn : normalizePayload body = .ok n)
    (ht : n.target ≠ "")
    (hW : alookup (refreshWhitelist chain now ttl vault st.cache).wlCache
      (pyLower vault) = some W)
    (hne : W ≠ ∅)
    (hnot : pyLower n.target ∉ W) :
    handleVaultRpc evalFw mkFirewall chain now ttl vault (some body) st =
      (.whitelistBlocked n.target (wlGateReason n.target W),
       { st with cache := refreshWhitelist chain now ttl vault st.cache }) ∧
    renderResponse
      (.whitelistBlocked n.target (wlGateReason n.target W)) =
      (403, whitelistBlockBody n.target (wlGateReason n.target W)) ∧
    alookup (whitelistBlockBody n.target (wlGateReason n.target W))
      "verdict" = some (.str "BLOCK_WHITELIST") ∧
    (handleVaultRpc evalFw mkFirewall chain now ttl vault (some body)
      st).2.vaultFirewalls = st.vaultFirewalls ∧
    (handleVaultRpc evalFw mkFirewall chain now ttl vault (some body)
      st).2.cache.configCache = st.cache.configCache := by
  have hcw : checkWhitelist chain now ttl vault n.target st.cache =
      ((false, wlGateReason n.target W),
       refreshWhitelist chain now ttl vault st.cache) := by
    simp only [checkWhitelist, hW]
    rw [if_neg hne, if_neg (by simpa using hnot)]
    rfl
  have hmain : handleVaultRpc evalFw mkFirewall chain now ttl vault
      (some body) st =
      (.whitelistBlocked n.target (wlGateReason n.target W),
       { st with cache := refreshWhitelist chain now ttl vault st.cache }) := by
    simp only [handleVaultRpc, haddr, if_true, hro, Bool.false_eq_true,
      if_false, hn, ne_eq, ht, not_false_eq_true, ↓reduceIte, hcw]
  refine ⟨hmain, rfl, rfl, ?_, ?_⟩
  · rw [hmain]
  · rw [hmain]
    exact refreshWhitelist_configCache chain now ttl vault st.cache

def wlSetB : Finset String := {"0xbb"}

/-- Proxy state: vault `vaultA` already has a firewall (state 0) and a
fresh non-empty cached whitelist. -/
def stWl : ProxyState Nat :=
  ⟨[(vaultA, 0)], ⟨[], [(vaultA, wlSetB)], [(vaultA, 1000)]⟩⟩

def emptyToBody : JsonObj :=
  [("method", .str "eth_sendTransaction"), ("params", .arr [.obj []])]

/-- C1 counterexample: with a non-empty whitelist and an empty normalized
target — which is not in the whitelist — the handler does NOT return
BLOCK_WHITELIST: the gate is skipped for empty targets (`if destination
and _vault_cache`), the firewall runs (its state advances from 0 to 1) and
the request is forwarded. -/
theorem whitelist_gate_skipped_on_empty_target :
    (handleVaultRpc countingAllow (fun _ => 0) (fun _ _ => .fail) 1000 300
       vaultA (some emptyToBody) stWl).1 = .forwarded emptyToBody ∧
    (handleVaultRpc countingAllow (fun _ => 0) (fun _ _ => .fail) 1000 300
       vaultA (some emptyToBody) stWl).2.vaultFirewalls = [(vaultA, 1)] ∧
    wlSetB ≠ ∅ ∧ pyLower "" ∉ wlSetB := by
  exact ⟨rfl, rfl, by decide, by decide⟩

def targetCcBody : JsonObj :=
  [("method", .str "eth_sendTransaction"),
   ("params", .arr [.obj [("to", .str "0xCC")]])]

/-- Witness for the amended C1: vault `vaultA` with fresh whitelist
`{"0xbb"}` and target `0xcc` is blocked by the gate with the firewall map
untouched. -/
theorem whitelist_gate_blocks_nonempty_target_witness :
    handleVaultRpc countingAllow (fun _ => 0) (fun _ _ => .fail) 1000 300
      vaultA (some targetCcBody) stWl =
      (.whitelistBlocked "0xcc" (wlGateReason "0xcc" wlSetB),
       { stWl with cache :=
           (refreshWhitelist (fun _ _ => .fail) 1000 300 vaultA stWl.cache) }) ∧
    (handleVaultRpc countingAllow (fun _ => 0) (fun _ _ => .fail) 1000 300
      vaultA (some targetCcBody) stWl).2.vaultFirewalls =
      stWl.vaultFirewalls := by
  have hfresh : refreshWhitelist (fun _ _ => .fail) 1000 300 vaultA
      stWl.cache = stWl.cache := by
    unfold refreshWhitelist
    dsimp only
    rw [if_neg]
    have hts : alookup stWl.cache.wlFetchedAt (pyLower vaultA) =
        some 1000 := by decide
    rw [hts]
    norm_num
  have h := whitelist_gate_blocks_nonempty_target countingAllow (fun _ => 0)
    (fun _ _ => .fail) 1000 300 vaultA targetCcBody stWl
    (normRecord targetCcBody "0xcc") wlSetB (by decide) rfl
    (normalizePayload_ok targetCcBody "0xcc" rfl) (by decide)
    (by rw [hfresh]; decide) (by decide) (by decide)
  exact ⟨h.1, h.2.2.2.1⟩

/-! ## C9 — whitelist resolution: cap, activity verification, lowercase -/

/-- What the loop guarantees about an address it adds: it is already
lowercase, and the `whitelisted(addr)` verification read answered a value
that parses to 1. -/
def wlEntryOk (chain : Chain) (m a : String) : Prop :=
  pyLower a = a ∧
  ∃ v, ethCall chain m (whitelistedSig ++ zfill (pyLower (pyDrop a 2)) 64) =
    some v ∧ parsePyHex v = some 1

theorem pyLower_fixes_built_addr (x : String) :
    pyLower ("0x" ++ pyLower x) = "0x" ++ pyLower x := by
  rw [pyLower_append, pyLower_idem]
  rfl

theorem wlStep_ok (chain : Chain) (m : String) (acc : Finset String) (i : Nat)
    (W : Finset String) (h : wlStep chain m acc i = .ok W) :
    W = acc ∨ ∃ a, W = insert a acc ∧ wlEntryOk chain m a := by
  unfold wlStep at h
  cases h1 : ethCall chain m (whitelistedListSig ++ zfill ⟨Nat.toDigits 16 i⟩ 64) with
  | none =>
    simp only [h1] at h
    cases h
    exact Or.inl rfl
  | some araw =>
    simp only [h1] at h
    by_cases h2 : (araw == "") = true
    · simp only [h2, if_true] at h
      cases h
      exact Or.inl rfl
    · simp only [h2, Bool.false_eq_true, if_false] at h
      cases h3 : ethCall chain m (whitelistedSig ++
          zfill (pyLower (pyDrop ("0x" ++ pyLower (pyTakeRight araw 40)) 2)) 64) with
      | none =>
        simp only [h3] at h
        cases h
        exact Or.inl rfl
      | some vraw =>
        simp only [h3] at h
        by_cases h4 : (vraw == "") = true
        · simp only [h4, if_true] at h
          cases h
          exact Or.inl rfl
        · simp only [h4, Bool.false_eq_true, if_false] at h
          cases h5 : parsePyHex vraw with
          | none =>
            simp only [h5] at h
            cases h
          | some nv =>
            simp only [h5] at h
            by_cases h6 : nv = 1
            · subst h6
              simp only [if_true] at h
              cases h
              refine Or.inr ⟨_, rfl, pyLower_fixes_built_addr _, vraw, h3, h5⟩
            · simp only [h6, if_false] at h
              cases h
              exact Or.inl rfl

theorem wlFold_ok (chain : Chain) (m : String) :
    ∀ (l : List Nat) (acc W : Finset String),
      List.foldlM (wlStep chain m) acc l = .ok W →
      W.card ≤ acc.card + l.length ∧
      ∀ a ∈ W, a ∈ acc ∨ wlEntryOk chain m a := by
  intro l
  induction l with
  | nil =>
    intro acc W h
    cases h
    exact ⟨by simp, fun a ha => Or.inl ha⟩
  | cons i l ih =>
    intro acc W h
    rw [List.foldlM_cons] at h
    cases hstep : wlStep chain m acc i with
    | error e =>
      rw [hstep] at h
      cases h
    | ok acc' =>
      rw [hstep] at h
      have hrest := ih acc' W h
      rcases wlStep_ok chain m acc i acc' hstep with heq | ⟨a, heq, hok⟩
      · subst heq
        exact ⟨by simpa using Nat.le_trans hrest.1 (by omega), hrest.2⟩
      · subst heq
        constructor
        · calc W.card ≤ (insert a acc).card + l.length := hrest.1
            _ ≤ acc.card + 1 + l.length :=
                Nat.add_le_add_right (Finset.card_insert_le a acc) _
            _ = acc.card + (i :: l).length := by
                simp [Nat.add_assoc, Nat.add_comm 1]
        · intro b hb
          rcases hrest.2 b hb with hmem | hok'
          · rcases Finset.mem_insert.mp hmem with hba | hmem'
            · subst hba
              exact Or.inr hok
            · exact Or.inl hmem'
          · exact Or.inr hok'

/-- C9: whatever whitelist `_fetch_whitelist` leaves in the cache for the
vault is either the retained previous entry (exception path) or a set that
the capped read loop produced: at most `MAX_WHITELIST_ENTRIES` (= 100)
entries, every member stored lowercased, and every member verified active
by a `whitelisted(addr)` read whose reply parsed to 1.  The stored value is
a pure `Finset` — the model of the frozen set. -/
theorem whitelist_resolution_capped_active_lowercase (chain : Chain)
    (now : ℚ) (vault : String) (st : CacheState) (W : Finset String)
    (h : alookup (fetchWhitelist chain now vault st).wlCache (pyLower vault) =
      some W) :
    alookup st.wlCache (pyLower vault) = some W ∨
    (W.card ≤ MAX_WHITELIST_ENTRIES ∧ ∀ a ∈ W,
      pyLower a = a ∧ ∃ m v,
        ethCall chain m (whitelistedSig ++ zfill (pyLower (pyDrop a 2)) 64) =
          some v ∧ parsePyHex v = some 1) := by
  have hempty : ∀ st1 : CacheState,
      st1.wlCache = st.wlCache →
      alookup (setWl st1 (pyLower vault) ∅).wlCache (pyLower vault) =
        some W → W = ∅ := by
    intro st1 hst1 hl
    rw [setWl] at hl
    simp only [hst1] at hl
    rw [alookup_aupdate_self] at hl
    cases hl
    rfl
  have hfold_case : ∀ (m : String) (cnt : Int) (ws : Finset String),
      (List.range ((min cnt (MAX_WHITELIST_ENTRIES : Int)).toNat)).foldlM
        (wlStep chain m) (∅ : Finset String) = .ok ws →
      ws.card ≤ MAX_WHITELIST_ENTRIES ∧ ∀ a ∈ ws,
        pyLower a = a ∧ ∃ m' v,
          ethCall chain m' (whitelistedSig ++
            zfill (pyLower (pyDrop a 2)) 64) = some v ∧
          parsePyHex v = some 1 := by
    intro m cnt ws hfold
    have hf := wlFold_ok chain m
      (List.range ((min cnt (MAX_WHITELIST_ENTRIES : Int)).toNat)) ∅ ws hfold
    constructor
    · have h1 := hf.1
      simp only [Finset.card_empty, List.length_range, Nat.zero_add] at h1
      have h2 : (min cnt (MAX_WHITELIST_ENTRIES : Int)).toNat ≤
          MAX_WHITELIST_ENTRIES := by
        simp only [MAX_WHITELIST_ENTRIES]
        omega
      exact Nat.le_trans h1 h2
    · intro a ha
      rcases hf.2 a ha with hmem | hok
      · exact absurd hmem (by simp)
      · exact ⟨hok.1, m, hok.2⟩
  have hWempty : W = ∅ →
      W.card ≤ MAX_WHITELIST_ENTRIES ∧ ∀ a ∈ W,
        pyLower a = a ∧ ∃ m' v,
          ethCall chain m' (whitelistedSig ++
            zfill (pyLower (pyDrop a 2)) 64) = some v ∧
          parsePyHex v = some 1 := by
    intro hw
    subst hw
    exact ⟨by simp [MAX_WHITELIST_ENTRIES], by simp⟩
  unfold fetchWhitelist at h
  dsimp only at h
  cases hmod : ethCall chain vault whitelistModuleSig with
  | none =>
    simp only [hmod] at h
    exact Or.inr (hWempty (hempty _ rfl h))
  | some mraw =>
    simp only [hmod] at h
    by_cases hmz : (mraw == "" || mraw == ADDR_ZERO) = true
    · simp only [hmz, if_true] at h
      exact Or.inr (hWempty (hempty _ rfl h))
    · simp only [hmz, Bool.false_eq_true, if_false] at h
      cases hcnt : ethCall chain ("0x" ++ pyTakeRight mraw 40)
          whitelistCountSig with
      | none =>
        simp only [hcnt] at h
        exact Or.inr (hWempty (hempty _ rfl h))
      | some craw =>
        simp only [hcnt] at h
        by_cases hcz : (craw == "") = true
        · simp only [hcz, if_true] at h
          exact Or.inr (hWempty (hempty _ rfl h))
        · simp only [hcz, Bool.false_eq_true, if_false] at h
          cases hparse : parsePyHex craw with
          | none =>
            simp only [hparse] at h
            by_cases hsome :
                (alookup st.wlCache (pyLower vault)).isSome = true
            · simp only [hsome, if_true] at h
              exact Or.inl h
            · simp only [hsome, Bool.false_eq_true, if_false] at h
              exact Or.inr (hWempty (hempty _ rfl h))
          | some cnt =>
            simp only [hparse] at h
            by_cases hc0 : cnt = 0
            · simp only [hc0, if_true] at h
              exact Or.inr (hWempty (hempty _ rfl h))
            · simp only [hc0, if_false] at h
              cases hfold : (List.range
                  ((min cnt (MAX_WHITELIST_ENTRIES : Int)).toNat)).foldlM
                  (wlStep chain ("0x" ++ pyTakeRight mraw 40))
                  (∅ : Finset String) with
              | error e =>
                simp only [hfold] at h
                by_cases hsome :
                    (alookup st.wlCache (pyLower vault)).isSome = true
                · simp only [hsome, if_true] at h
                  exact Or.inl h
                · simp only [hsome, Bool.false_eq_true, if_false] at h
                  exact Or.inr (hWempty (hempty _ rfl h))
              | ok ws =>
                simp only [hfold] at h
                rw [setWl] at h
                dsimp only at h
                rw [alookup_aupdate_self] at h
                cases h
                exact Or.inr (hfold_case _ cnt W hfold)

/-- A concrete chain: vault `0xab` exposes a whitelist module at
`0x…01` with one entry `0xdd…d`, active.  Any other query — including any
differently-cased vault address — fails. -/
def moduleHexW : String := ⟨List.replicate 39 '0' ++ ['1']⟩

def moduleAddrW : String := "0x" ++ moduleHexW

def entryHexW : String := ⟨List.replicate 40 'd'⟩

def entryAddrW : String := "0x" ++ entryHexW

def chainOne : Chain := fun toA d =>
  if toA == "0xab" && d == whitelistModuleSig then .ok ("0x" ++ moduleHexW)
  else if toA == moduleAddrW && d == whitelistCountSig then .ok "0x1"
  else if toA == moduleAddrW && d == (whitelistedListSig ++ zfill "0" 64) then
    .ok ("0x" ++ ⟨List.replicate 24 '0'⟩ ++ entryHexW)
  else if toA == moduleAddrW && d == (whitelistedSig ++ zfill entryHexW 64) then
    .ok "0x1"
  else .fail

def cacheEmpty : CacheState := ⟨[], [], []⟩

def wlSetD : Finset String := {entryAddrW}

/-- Witness for C9: resolving `0xab`'s whitelist against `chainOne` stores
`{0xdd…d}`, and the theorem's guarantees hold of it. -/
theorem whitelist_resolution_witness :
    alookup cacheEmpty.wlCache (pyLower "0xab") = some wlSetD ∨
    (wlSetD.card ≤ MAX_WHITELIST_ENTRIES ∧ ∀ a ∈ wlSetD,
      pyLower a = a ∧ ∃ m v,
        ethCall chainOne m (whitelistedSig ++
          zfill (pyLower (pyDrop a 2)) 64) = some v ∧
        parsePyHex v = some 1) :=
  whitelist_resolution_capped_active_lowercase chainOne 1000 "0xab"
    cacheEmpty wlSetD (by decide)

/-! ## C8 — failure policy of the config cache -/

/-- Every branch of `check_whitelist` returns the refreshed cache state. -/
theorem checkWhitelist_state (chain : Chain) (now ttl : ℚ)
    (v t : String) (st : CacheState) :
    (checkWhitelist chain now ttl v t st).2 =
      refreshWhitelist chain now ttl v st := by
  unfold checkWhitelist
  dsimp only
  repeat' split
  all_goals rfl

theorem refreshWhitelist_stale (chain : Chain) (now ttl : ℚ) (vault : String)
    (st : CacheState)
    (h : now - (alookup st.wlFetchedAt (pyLower vault)).getD 0 ≥ ttl) :
    refreshWhitelist chain now ttl vault st =
      fetchWhitelist chain now vault st := by
  unfold refreshWhitelist
  dsimp only
  rw [if_pos h]

def chainFailAll : Chain := fun _ _ => .fail

def cfgOld : CachedCfg := ⟨.params 1 2 300, 0⟩

/-- A cache already holding a config and a non-empty whitelist for `0xab`,
both stale. -/
def stClobber : CacheState :=
  ⟨[("0xab", cfgOld)], [("0xab", wlSetD)], [("0xab", 0)]⟩

/-- The velocity config `_fetch_from_chain` builds when every read fails:
all-default parameters (5 ETH/h, 2 ETH single, 300 s window). -/
def dfltVelocityCfg : FetchedConfig := .params (5 / 3600) 2 300

/-- C8 counterexample: with an upstream that fails at the network level,
a stale refresh does NOT retain the previous cached values — the whitelist
entry `{0xdd…d}` is overwritten with the empty set (legacy mode), and the
cached config `params 1 2 300` is overwritten with a freshly-built default
config, which is what later lookups return. -/
theorem fetch_failure_clobbers_cache :
    alookup (checkWhitelist chainFailAll 1000 300 "0xab" "0xcc"
      stClobber).2.wlCache "0xab" = some ∅ ∧
    alookup stClobber.wlCache "0xab" = some wlSetD ∧
    wlSetD ≠ (∅ : Finset String) ∧
    (cacheGet chainFailAll 1000 300 "0xab" stClobber).1 = dfltVelocityCfg ∧
    alookup (cacheGet chainFailAll 1000 300 "0xab"
      stClobber).2.configCache "0xab" = some ⟨dfltVelocityCfg, 1000⟩ ∧
    cfgOld.config = .params 1 2 300 ∧
    dfltVelocityCfg ≠ .params 1 2 300 := by
  have hts : alookup stClobber.wlFetchedAt (pyLower "0xab") =
      some 0 := by decide
  have hstale : (1000 : ℚ) -
      (alookup stClobber.wlFetchedAt (pyLower "0xab")).getD 0 ≥ 300 := by
    rw [hts]
    norm_num
  have hwl : alookup (checkWhitelist chainFailAll 1000 300 "0xab" "0xcc"
      stClobber).2.wlCache "0xab" = some ∅ := by
    rw [checkWhitelist_state, refreshWhitelist_stale _ _ _ _ _ hstale]
    decide
  have hffc : fetchFromChain chainFailAll "0xab" = dfltVelocityCfg := rfl
  have hcfg : (cacheGet chainFailAll 1000 300 "0xab" stClobber).1 =
      dfltVelocityCfg ∧
      alookup (cacheGet chainFailAll 1000 300 "0xab"
        stClobber).2.configCache "0xab" = some ⟨dfltVelocityCfg, 1000⟩ := by
    have hc : alookup stClobber.configCache (pyLower "0xab") =
        some cfgOld := by decide
    have hnotfresh : ¬((1000 : ℚ) - cfgOld.fetchedAt < 300) := by
      show ¬((1000 : ℚ) - 0 < 300)
      norm_num
    unfold cacheGet
    dsimp only
    rw [hc]
    dsimp only
    rw [if_neg hnotfresh, hffc]
    exact ⟨rfl, by rw [show pyLower "0xab" = "0xab" from rfl,
      alookup_aupdate_self]⟩
  refine ⟨hwl, by decide, by decide, hcfg.1, hcfg.2, rfl, ?_⟩
  intro hcontra
  rw [dfltVelocityCfg] at hcontra
  have := (FetchedConfig.params.injEq _ _ _ _ _ _).mp hcontra
  have h5 : (5 : ℚ) / 3600 = 1 := this.1
  norm_num at h5

/-- C8 as amended: the retention the spec describes happens only on an
exception mid-fetch (e.g. an unparsable count value); an RPC-level failure
surfaces as an absent result and is treated as empty data: the whitelist
entry is overwritten with the empty set, and a config refetch against a
dead upstream builds and stores the all-default velocity config.  (Both
`get` and `check_whitelist` are total functions of the model: no failure
propagates to the caller.) -/
theorem config_cache_failure_policy :
    (∀ (chain : Chain) (now : ℚ) (vault : String) (st : CacheState)
       (mraw craw : String),
       ethCall chain vault whitelistModuleSig = some mraw →
       (mraw == "" || mraw == ADDR_ZERO) = false →
       ethCall chain ("0x" ++ pyTakeRight mraw 40) whitelistCountSig =
         some craw →
       (craw == "") = false →
       parsePyHex craw = none →
       (alookup st.wlCache (pyLower vault)).isSome = true →
       (fetchWhitelist chain now vault st).wlCache = st.wlCache) ∧
    (∀ (chain : Chain) (now : ℚ) (vault : String) (st : CacheState),
       chain vault whitelistModuleSig = .fail →
       alookup (fetchWhitelist chain now vault st).wlCache (pyLower vault) =
         some ∅) ∧
    (∀ (chain : Chain) (vault : String), (∀ a d, chain a d = .fail) →
       fetchFromChain chain vault = dfltVelocityCfg) := by
  refine ⟨?_, ?_, ?_⟩
  · intro chain now vault st mraw craw hmod hmz hcnt hcz hparse hsome
    unfold fetchWhitelist
    dsimp only
    simp only [hmod, hmz, Bool.false_eq_true, if_false, hcnt, hcz, hparse,
      hsome, if_true]
  · intro chain now vault st h
    have hec : ethCall chain vault whitelistModuleSig = none := by
      unfold ethCall
      rw [h]
    unfold fetchWhitelist
    dsimp only
    simp only [hec, setWl]
    exact alookup_aupdate_self _ _ _
  · intro chain vault h
    have hec : ∀ a d, ethCall chain a d = none := by
      intro a d
      unfold ethCall
      rw [h a d]
    unfold fetchFromChain fetchFromChainE moduleRead
    simp only [hec]
    rfl

/-- A chain whose whitelist-count reply is garbage (`0xzz`): parsing it
raises `ValueError`, the one failure mode that reaches the retention
handler. -/
def chainBadCount : Chain := fun toA d =>
  if toA == "0xab" && d == whitelistModuleSig then .ok ("0x" ++ moduleHexW)
  else if toA == moduleAddrW && d == whitelistCountSig then .ok "0xzz"
  else .fail

/-- Witness for the amended C8: the exception path retains `stClobber`'s
whitelist; the RPC-failure path overwrites with the empty set; a dead
upstream yields the default velocity config. -/
theorem config_cache_failure_policy_witness :
    (fetchWhitelist chainBadCount 1000 "0xab" stClobber).wlCache =
      stClobber.wlCache ∧
    alookup (fetchWhitelist chainFailAll 1000 "0xcd" cacheEmpty).wlCache
      (pyLower "0xcd") = some ∅ ∧
    fetchFromChain chainFailAll "0xcd" = dfltVelocityCfg := by
  refine ⟨?_, ?_, ?_⟩
  · exact config_cache_failure_policy.1 chainBadCount 1000 "0xab" stClobber
      moduleHexW "zz" (by decide) (by decide) (by decide) (by decide)
      (by decide) (by decide)
  · exact config_cache_failure_policy.2.1 chainFailAll 1000 "0xcd"
      cacheEmpty rfl
  · exact config_cache_failure_policy.2.2 chainFailAll "0xcd"
      (fun _ _ => rfl)

/-! ## C10 — case-insensitivity of the whitelist gate -/

/-- The allowed-bit of `check_whitelist` as a function of the refreshed
cache entry: legacy-allow when absent or empty, membership of the
lowercased target otherwise. -/
def wlGateAllowed (wl? : Option (Finset String)) (t : String) : Bool :=
  match wl? with
  | none => true
  | some wl => if wl = ∅ then true else decide (pyLower t ∈ wl)

theorem checkWhitelist_allowed_eq (chain : Chain) (now ttl : ℚ)
    (v t : String) (st : CacheState) :
    (checkWhitelist chain now ttl v t st).1.1 =
      wlGateAllowed
        (alookup (refreshWhitelist chain now ttl v st).wlCache (pyLower v))
        t := by
  unfold checkWhitelist wlGateAllowed
  dsimp only
  cases alookup (refreshWhitelist chain now ttl v st).wlCache (pyLower v) with
  | none => rfl
  | some wl =>
    by_cases hz : wl = ∅
    · simp [hz]
    · simp only [hz, if_false]
      by_cases hm : pyLower t ∈ wl
      · simp [hm]
      · simp [hm]

theorem ethCall_lower_congr (chain : Chain)
    (hchain : ∀ a d, chain a d = chain (pyLower a) d) (a a' d : String)
    (h : pyLower a' = pyLower a) : ethCall chain a' d = ethCall chain a d := by
  unfold ethCall
  rw [hchain a' d, hchain a d, h]

theorem fetchWhitelist_lower_congr (chain : Chain)
    (hchain : ∀ a d, chain a d = chain (pyLower a) d) (now : ℚ)
    (v v' : String) (h : pyLower v' = pyLower v) (st : CacheState) :
    fetchWhitelist chain now v' st = fetchWhitelist chain now v st := by
  unfold fetchWhitelist
  rw [h, ethCall_lower_congr chain hchain v v' whitelistModuleSig h]

theorem refreshWhitelist_lower_congr (chain : Chain)
    (hchain : ∀ a d, chain a d = chain (pyLower a) d) (now ttl : ℚ)
    (v v' : String) (h : pyLower v' = pyLower v) (st : CacheState) :
    refreshWhitelist chain now ttl v' st = refreshWhitelist chain now ttl v st := by
  unfold refreshWhitelist
  rw [h, fetchWhitelist_lower_congr chain hchain now v v' h]

/-- C10 as amended: the whitelist-gate outcome is invariant under re-casing
of the vault address and the target — `check_whitelist(v', t')` allows
exactly when `check_whitelist(v, t)` does whenever `lower(v') = lower(v)`
and `lower(t') = lower(t)` — PROVIDED the upstream chain answers
case-insensitively in the queried address.  (Without that proviso the fetch
inside a stale `check_whitelist` queries the chain with the verbatim
address and the outcomes can differ; see the counterexample.) -/
theorem checkWhitelist_case_insensitive (chain : Chain)
    (hchain : ∀ a d, chain a d = chain (pyLower a) d) (now ttl : ℚ)
    (v v' t t' : String) (hv : pyLower v' = pyLower v)
    (ht : pyLower t' = pyLower t) (st : CacheState) :
    (checkWhitelist chain now ttl v' t' st).1.1 =
      (checkWhitelist chain now ttl v t st).1.1 := by
  rw [checkWhitelist_allowed_eq, checkWhitelist_allowed_eq, hv,
    refreshWhitelist_lower_congr chain hchain now ttl v v' hv st]
  unfold wlGateAllowed
  cases alookup (refreshWhitelist chain now ttl v st).wlCache (pyLower v) with
  | none => rfl
  | some wl => rw [ht]

/-- C10 counterexample: against a case-sensitive chain (`chainOne` answers
only the exact string `0xab`), a stale `check_whitelist` is NOT
case-insensitive: the lowercase pair is blocked (the fetched whitelist
`{0xdd…d}` does not contain `0xcc`) while the uppercase pair is allowed
(the fetch fails, an empty whitelist is cached, legacy mode allows). -/
theorem whitelist_gate_case_sensitivity :
    (checkWhitelist chainOne 1000 300 "0xab" "0xcc" cacheEmpty).1.1 = false ∧
    (checkWhitelist chainOne 1000 300 "0XAB" "0XCC" cacheEmpty).1.1 = true ∧
    pyLower "0XAB" = pyLower "0xab" ∧
    pyLower "0XCC" = pyLower "0xcc" := by
  have hstale : ∀ w : String, (1000 : ℚ) -
      (alookup cacheEmpty.wlFetchedAt (pyLower w)).getD 0 ≥ 300 := by
    intro w
    have : alookup cacheEmpty.wlFetchedAt (pyLower w) = none := rfl
    rw [this]
    norm_num
  refine ⟨?_, ?_, by decide, by decide⟩
  · rw [checkWhitelist_allowed_eq,
      refreshWhitelist_stale _ _ _ _ _ (hstale "0xab")]
    decide
  · rw [checkWhitelist_allowed_eq,
      refreshWhitelist_stale _ _ _ _ _ (hstale "0XAB")]
    decide

/-- Witness for the amended C10 with a (trivially) case-insensitive chain
and concrete re-cased inputs. -/
theorem checkWhitelist_case_insensitive_witness :
    (checkWhitelist chainFailAll 1000 300 "0XAB" "0XCC" cacheEmpty).1.1 =
      (checkWhitelist chainFailAll 1000 300 "0xab" "0xcc" cacheEmpty).1.1 :=
  checkWhitelist_case_insensitive chainFailAll (fun _ _ => rfl) 1000 300
    "0xab" "0XAB" "0xcc" "0XCC" (by decide) (by decide) cacheEmpty

end Aegis
